import Mathlib

/-!
Verification development for the Toko matchmaking / presence server.

The definitions below are shallow embeddings of the TypeScript source:
* `MatchmakingService` (src/server/services/matchmaking.ts): profile data,
  the compatibility scorer, the waiting queue / active match state machine.
* `PresenceService` (presence service source): online-user registry.
* The Socket.IO route layer (src/server/routes.ts): the `join-queue` and
  `disconnect` handlers, with emitted socket events made explicit.

Timestamps (`Date.now()` values, milliseconds) are modelled as rationals and
threaded explicitly as a `now` argument.  JavaScript `Map`s are modelled as
association lists in insertion order (`Map.set` on a fresh key appends,
`Map.delete` filters), `Set`s as lists with membership-guarded insertion.
JavaScript string truthiness (`undefined` and `""` are falsy) is modelled by
`truthy` on `Option String`.
-/

attribute [local semireducible] Rat.mul Rat.add Rat.sub Rat.inv Rat.ofScientific

namespace Toko

/-- Chat mode: the `'text' | 'video'` union of the source. -/
inductive ChatMode where
  | text
  | video
deriving DecidableEq, Repr

/-- `location` field of a `UserProfile`. -/
structure Location where
  country : String
  timezone : String
deriving DecidableEq, Repr

/-- `preferences` field of a `UserProfile` (`ageRange` is never read by the
matchmaking code and is omitted). -/
structure Preferences where
  language : Option String
  verified : Bool
deriving DecidableEq, Repr

/-- `UserProfile` from src/server/services/matchmaking.ts. -/
structure UserProfile where
  id : String
  socketId : String
  interests : List String
  gender : Option String
  genderPreference : Option String
  countryPreference : Option String
  chatMode : ChatMode
  location : Option Location
  preferences : Preferences
  joinedAt : ℚ
deriving DecidableEq, Repr

/-- JavaScript truthiness for an optional string: `undefined` and `""` are
falsy, every other string is truthy. -/
def truthy : Option String → Bool
  | none => false
  | some s => !s.isEmpty

/-- Whether an optional country preference is the literal `'Any on Earth'`. -/
def isAnyOnEarth (o : Option String) : Bool := o == some "Any on Earth"

/-- `MatchmakingService.checkGenderCompatibility`. -/
def checkGenderCompatibility (user1 user2 : UserProfile) : Bool :=
  if !truthy user1.genderPreference && !truthy user2.genderPreference then
    true
  else
    (!truthy user1.genderPreference ||
      (truthy user2.gender && user1.genderPreference == user2.gender)) &&
    (!truthy user2.genderPreference ||
      (truthy user1.gender && user2.genderPreference == user1.gender))

/-- `MatchmakingService.checkCountryCompatibility`. -/
def checkCountryCompatibility (user1 user2 : UserProfile) : Bool :=
  if (!truthy user1.countryPreference || isAnyOnEarth user1.countryPreference) &&
     (!truthy user2.countryPreference || isAnyOnEarth user2.countryPreference) then
    true
  else if (isAnyOnEarth user1.countryPreference && truthy user2.countryPreference) ||
          (isAnyOnEarth user2.countryPreference && truthy user1.countryPreference) then
    true
  else
    user1.countryPreference == user2.countryPreference

/-- `commonInterests.length`: the number of entries of `user1.interests`
that also occur in `user2.interests` (duplicates in `user1.interests`
count multiply, exactly as `Array.prototype.filter` does). -/
def sharedInterestCount (user1 user2 : UserProfile) : ℕ :=
  (user1.interests.filter (fun interest => user2.interests.contains interest)).length

/-- Score contribution of step 2 (gender preferences):
`+2` when compatible, `-1` when either side has an unmet preference. -/
def genderScore (user1 user2 : UserProfile) : ℚ :=
  if checkGenderCompatibility user1 user2 then 2
  else if truthy user1.genderPreference || truthy user2.genderPreference then -1
  else 0

/-- Criteria contribution of step 2. -/
def genderCriteria (user1 user2 : UserProfile) : List String :=
  if checkGenderCompatibility user1 user2 then ["gender_preference"] else []

/-- Score contribution of step 3 (country preferences):
`+2` when compatible, `-1` when either side has an unmet specific preference. -/
def countryScore (user1 user2 : UserProfile) : ℚ :=
  if checkCountryCompatibility user1 user2 then 2
  else if (truthy user1.countryPreference && !isAnyOnEarth user1.countryPreference) ||
          (truthy user2.countryPreference && !isAnyOnEarth user2.countryPreference) then -1
  else 0

/-- Criteria contribution of step 3. -/
def countryCriteria (user1 user2 : UserProfile) : List String :=
  if checkCountryCompatibility user1 user2 then ["country_preference"] else []

/-- Score contribution of step 4 (common interests):
`Math.min(2, count * 0.5)` when at least one tag is shared. -/
def interestScore (user1 user2 : UserProfile) : ℚ :=
  if 0 < sharedInterestCount user1 user2 then
    min 2 ((sharedInterestCount user1 user2 : ℚ) * (1 / 2))
  else 0

/-- Criteria contribution of step 4. -/
def interestCriteria (user1 user2 : UserProfile) : List String :=
  if 0 < sharedInterestCount user1 user2 then ["interests"] else []

/-- Score contribution of the location/timezone step. -/
def locationScore (user1 user2 : UserProfile) : ℚ :=
  match user1.location, user2.location with
  | some l1, some l2 =>
      if l1.country = l2.country then 1
      else if l1.timezone = l2.timezone then 1 / 2
      else 0
  | _, _ => 0

/-- Criteria contribution of the location/timezone step. -/
def locationCriteria (user1 user2 : UserProfile) : List String :=
  match user1.location, user2.location with
  | some l1, some l2 =>
      if l1.country = l2.country then ["location"]
      else if l1.timezone = l2.timezone then ["timezone"]
      else []
  | _, _ => []

/-- Score contribution of the language-preference step. -/
def languageScore (user1 user2 : UserProfile) : ℚ :=
  if truthy user1.preferences.language && truthy user2.preferences.language then
    if user1.preferences.language == user2.preferences.language then 1 else 0
  else 0

/-- Criteria contribution of the language-preference step. -/
def languageCriteria (user1 user2 : UserProfile) : List String :=
  if truthy user1.preferences.language && truthy user2.preferences.language then
    if user1.preferences.language == user2.preferences.language then ["language"] else []
  else []

/-- Score contribution of the verification step. -/
def verifiedScore (user1 user2 : UserProfile) : ℚ :=
  if user1.preferences.verified && user2.preferences.verified then 1 / 2 else 0

/-- Criteria contribution of the verification step. -/
def verifiedCriteria (user1 user2 : UserProfile) : List String :=
  if user1.preferences.verified && user2.preferences.verified then ["verified"] else []

/-- Step 7: wait-time bonus, `Math.min(1, avgWaitTime / 120000)`. -/
def waitBonus (user1 user2 : UserProfile) (now : ℚ) : ℚ :=
  min 1 ((((now - user1.joinedAt) + (now - user2.joinedAt)) / 2) / 120000)

/-- The accumulated `score` of `calculateCompatibility` in the equal-chat-mode
case: `3` for the chat mode plus every later contribution. -/
def rawScore (user1 user2 : UserProfile) (now : ℚ) : ℚ :=
  3 + genderScore user1 user2 + countryScore user1 user2
    + interestScore user1 user2 + locationScore user1 user2
    + languageScore user1 user2 + verifiedScore user1 user2
    + waitBonus user1 user2 now

/-- Result record of `calculateCompatibility`. -/
structure CompatResult where
  compatibility : ℚ
  criteria : List String
deriving DecidableEq, Repr

/-- `MatchmakingService.calculateCompatibility`: returns `0` with no criteria
on a chat-mode mismatch, otherwise `min 1 (score / maxScore)` with
`maxScore = 10` and the criteria pushed in source order. -/
def calculateCompatibility (user1 user2 : UserProfile) (now : ℚ) : CompatResult :=
  if user1.chatMode = user2.chatMode then
    { compatibility := min 1 (rawScore user1 user2 now / 10)
      criteria :=
        ["chat_mode"] ++ genderCriteria user1 user2 ++ countryCriteria user1 user2
          ++ interestCriteria user1 user2 ++ locationCriteria user1 user2
          ++ languageCriteria user1 user2 ++ verifiedCriteria user1 user2 }
  else
    { compatibility := 0, criteria := [] }

/-- `MatchResult` from src/server/services/matchmaking.ts.  Room ids
(`room_${Date.now()}_${random}` in the source, intended to be unique) are
modelled as naturals drawn from a fresh counter. -/
structure MatchResult where
  user1 : UserProfile
  user2 : UserProfile
  roomId : ℕ
  compatibility : ℚ
  matchedOn : List String
deriving DecidableEq, Repr

/-- In-memory state of `MatchmakingService`: `waitingQueue` and
`activeMatches` are insertion-ordered maps keyed by `socketId` resp.
`roomId`, `matchingInProgress` is a set of socket ids. -/
structure MMState where
  waitingQueue : List UserProfile
  activeMatches : List (ℕ × MatchResult)
  matchingInProgress : List String
  nextRoomId : ℕ
deriving DecidableEq, Repr

/-- `Set.prototype.add`: append unless already present. -/
def setAdd (l : List String) (x : String) : List String :=
  if l.contains x then l else l ++ [x]

/-- The service's initial (empty) state. -/
def initState : MMState :=
  { waitingQueue := [], activeMatches := [], matchingInProgress := [], nextRoomId := 0 }

/-- `MatchmakingService.removeFromQueue`: delete the socket from the waiting
queue and the mid-pairing set (Redis bookkeeping has no in-memory effect). -/
def removeFromQueue (socketId : String) (s : MMState) : MMState :=
  { s with
    waitingQueue := s.waitingQueue.filter (fun p => p.socketId ≠ socketId)
    matchingInProgress := s.matchingInProgress.filter (fun x => x ≠ socketId) }

/-- `MatchmakingService.createMatch`: mark both users mid-pairing, remove both
from the waiting queue, store the new match under a fresh room id. -/
def createMatch (user1 user2 : UserProfile) (compatibility : ℚ)
    (criteria : List String) (s : MMState) : MatchResult × MMState :=
  let roomId := s.nextRoomId
  let m : MatchResult :=
    { user1 := user1, user2 := user2, roomId := roomId
      compatibility := compatibility, matchedOn := criteria }
  (m,
    { waitingQueue := (s.waitingQueue.filter (fun p => p.socketId ≠ user1.socketId)).filter
        (fun p => p.socketId ≠ user2.socketId)
      activeMatches := s.activeMatches ++ [(roomId, m)]
      matchingInProgress := setAdd (setAdd s.matchingInProgress user1.socketId) user2.socketId
      nextRoomId := s.nextRoomId + 1 })

/-- Loop accumulator of `MatchmakingService.findMatch`: current best candidate,
best compatibility (initially `0`) and its criteria. -/
structure ScanAcc where
  bestMatch : Option UserProfile
  bestCompatibility : ℚ
  matchedCriteria : List String
deriving DecidableEq, Repr

/-- One iteration of the `findMatch` scan over the waiting queue: skip
candidates flagged mid-pairing and the target itself; adopt a candidate whose
compatibility exceeds both the `0.3` threshold and the best so far. -/
def scanStep (targetUser : UserProfile) (now : ℚ) (inProgress : List String)
    (acc : ScanAcc) (candidate : UserProfile) : ScanAcc :=
  if inProgress.contains candidate.socketId then acc
  else if candidate.socketId = targetUser.socketId then acc
  else
    let r := calculateCompatibility targetUser candidate now
    if 3 / 10 < r.compatibility ∧ acc.bestCompatibility < r.compatibility then
      { bestMatch := some candidate, bestCompatibility := r.compatibility
        matchedCriteria := r.criteria }
    else acc

/-- `MatchmakingService.findMatch`: scan the waiting queue for the best
eligible candidate; on success run `createMatch`. -/
def findMatch (targetUser : UserProfile) (now : ℚ) (s : MMState) :
    Option MatchResult × MMState :=
  let acc := s.waitingQueue.foldl (scanStep targetUser now s.matchingInProgress)
    { bestMatch := none, bestCompatibility := 0, matchedCriteria := [] }
  match acc.bestMatch with
  | some best =>
      let (m, s') := createMatch targetUser best acc.bestCompatibility acc.matchedCriteria s
      (some m, s')
  | none => (none, s)

/-- `MatchmakingService.addToQueue`: duplicate connections (already waiting or
mid-pairing) are a no-op returning no match; otherwise try an immediate match
and fall back to appending to the waiting queue. -/
def addToQueue (profile : UserProfile) (now : ℚ) (s : MMState) :
    Option MatchResult × MMState :=
  if s.waitingQueue.any (fun p => p.socketId = profile.socketId) ||
      s.matchingInProgress.contains profile.socketId then
    (none, s)
  else
    match findMatch profile now s with
    | (some m, s') => (some m, s')
    | (none, s') => (none, { s' with waitingQueue := s'.waitingQueue ++ [profile] })

/-- One iteration of `processWaitingQueue`: skip users already matched in this
pass or flagged mid-pairing, otherwise attempt `findMatch`. -/
def processStep (now : ℚ) (acc : List String × MMState) (user : UserProfile) :
    List String × MMState :=
  let (processed, s) := acc
  if processed.contains user.socketId || s.matchingInProgress.contains user.socketId then
    (processed, s)
  else
    match findMatch user now s with
    | (some m, s') => (processed ++ [m.user1.socketId, m.user2.socketId], s')
    | (none, s') => (processed, s')

/-- `MatchmakingService.processWaitingQueue`: nothing below two waiting users;
otherwise iterate over a snapshot of the waiting queue. -/
def processWaitingQueue (now : ℚ) (s : MMState) : MMState :=
  if s.waitingQueue.length < 2 then s
  else (s.waitingQueue.foldl (processStep now) ([], s)).2

/-- `MatchmakingService.cleanupStaleEntries`: remove every waiting entry whose
age strictly exceeds the 10-minute threshold (600000 ms), via
`removeFromQueue`.  The source logs to the server console; it emits no socket
event to the entry's owner. -/
def cleanupStaleEntries (now : ℚ) (s : MMState) : MMState :=
  s.waitingQueue.foldl
    (fun st user =>
      if 600000 < now - user.joinedAt then removeFromQueue user.socketId st else st)
    s

/-- `MatchmakingService.endMatch`: drop the match and unflag its two users;
no-op for an unknown room. -/
def endMatch (roomId : ℕ) (s : MMState) : MMState :=
  match (s.activeMatches.filter (fun e => e.1 = roomId)).head? with
  | some (_, m) =>
      { s with
        matchingInProgress := (s.matchingInProgress.filter
            (fun x => x ≠ m.user1.socketId)).filter (fun x => x ≠ m.user2.socketId)
        activeMatches := s.activeMatches.filter (fun e => e.1 ≠ roomId) }
  | none => s

/-- `MatchmakingService.getAllActiveMatches`. -/
def getAllActiveMatches (s : MMState) : List MatchResult :=
  s.activeMatches.map Prod.snd

/-- The operations quantified over by the queue invariants: `enqueue`
(`addToQueue`), `tick` (`processWaitingQueue`) and `dequeue`
(`removeFromQueue`), each stamped with its wall-clock instant. -/
inductive MMOp where
  | enqueue (profile : UserProfile) (now : ℚ)
  | tick (now : ℚ)
  | dequeue (socketId : String)
deriving DecidableEq, Repr

/-- Apply one operation to the service state. -/
def applyOp (s : MMState) : MMOp → MMState
  | .enqueue profile now => (addToQueue profile now s).2
  | .tick now => processWaitingQueue now s
  | .dequeue socketId => removeFromQueue socketId s

/-- Run a sequence of operations. -/
def runOps (s : MMState) (ops : List MMOp) : MMState :=
  ops.foldl applyOp s

/-- A socket id occurring in a match (as either participant). -/
def inMatch (socketId : String) (m : MatchResult) : Prop :=
  m.user1.socketId = socketId ∨ m.user2.socketId = socketId

instance (socketId : String) (m : MatchResult) : Decidable (inMatch socketId m) := by
  unfold inMatch; infer_instance

/-- A socket id occurring in some active match of the state. -/
def inActiveMatch (socketId : String) (s : MMState) : Prop :=
  ∃ e ∈ s.activeMatches, inMatch socketId e.2

instance (socketId : String) (s : MMState) : Decidable (inActiveMatch socketId s) := by
  unfold inActiveMatch; infer_instance

/-- Two matches share no member. -/
def noSharedMember (m1 m2 : MatchResult) : Prop :=
  ∀ socketId, inMatch socketId m1 → ¬ inMatch socketId m2

/-- `noSharedMember` amounts to four socket-id inequalities. -/
theorem noSharedMember_iff (m1 m2 : MatchResult) :
    noSharedMember m1 m2 ↔
      m1.user1.socketId ≠ m2.user1.socketId ∧ m1.user1.socketId ≠ m2.user2.socketId ∧
      m1.user2.socketId ≠ m2.user1.socketId ∧ m1.user2.socketId ≠ m2.user2.socketId := by
  constructor
  · intro h
    refine ⟨?_, ?_, ?_, ?_⟩ <;> intro e
    · exact h m1.user1.socketId (Or.inl rfl) (Or.inl e.symm)
    · exact h m1.user1.socketId (Or.inl rfl) (Or.inr e.symm)
    · exact h m1.user2.socketId (Or.inr rfl) (Or.inl e.symm)
    · exact h m1.user2.socketId (Or.inr rfl) (Or.inr e.symm)
  · rintro ⟨a, b, c, d⟩ socketId (h1 | h1) (h2 | h2)
    · exact a (h1.trans h2.symm)
    · exact b (h1.trans h2.symm)
    · exact c (h1.trans h2.symm)
    · exact d (h1.trans h2.symm)

instance (m1 m2 : MatchResult) : Decidable (noSharedMember m1 m2) :=
  decidable_of_iff _ (noSharedMember_iff m1 m2).symm

/-- The at-most-one-session property: no socket id is a member of two entries
of the active-match table. -/
def matchesDisjoint (s : MMState) : Prop :=
  s.activeMatches.Pairwise (fun e1 e2 => noSharedMember e1.2 e2.2)

instance (s : MMState) : Decidable (matchesDisjoint s) := by
  unfold matchesDisjoint; infer_instance

/-- A run in which `dequeue` is only ever applied to a socket that is not part
of a current active match (e.g. a socket that just disconnected and whose id
is never reused while its match is still recorded). -/
def safeRun (s : MMState) : List MMOp → Prop
  | [] => True
  | op :: rest =>
      (match op with
        | .dequeue socketId => ¬ inActiveMatch socketId s
        | _ => True) ∧ safeRun (applyOp s op) rest

instance instDecidableSafeRun (s : MMState) (ops : List MMOp) : Decidable (safeRun s ops) := by
  induction ops generalizing s with
  | nil => exact .isTrue trivial
  | cons op rest ih =>
      have : Decidable ((match op with
        | .dequeue socketId => ¬ inActiveMatch socketId s
        | _ => True) ∧ safeRun (applyOp s op) rest) := by
        have := ih (applyOp s op)
        cases op <;> simp only [] <;> infer_instance
      exact this

/-! ### Characterisation of the `findMatch` scan -/

/-- A waiting-queue candidate the scan actually evaluates for `targetUser`:
not flagged mid-pairing, and not the target itself. -/
def eligibleCandidate (inProgress : List String) (targetUser candidate : UserProfile) : Prop :=
  inProgress.contains candidate.socketId = false ∧ candidate.socketId ≠ targetUser.socketId

instance (inProgress : List String) (targetUser candidate : UserProfile) :
    Decidable (eligibleCandidate inProgress targetUser candidate) := by
  unfold eligibleCandidate; infer_instance

/-- Invariant of the `findMatch` scan loop over the part `seen` of the
waiting queue already visited. -/
def ScanInv (targetUser : UserProfile) (now : ℚ) (inProgress : List String)
    (seen : List UserProfile) (acc : ScanAcc) : Prop :=
  match acc.bestMatch with
  | none =>
      acc.bestCompatibility = 0 ∧
      ∀ c ∈ seen, eligibleCandidate inProgress targetUser c →
        (calculateCompatibility targetUser c now).compatibility ≤ 3 / 10
  | some best =>
      best ∈ seen ∧ eligibleCandidate inProgress targetUser best ∧
      acc.bestCompatibility = (calculateCompatibility targetUser best now).compatibility ∧
      3 / 10 < acc.bestCompatibility ∧
      acc.matchedCriteria = (calculateCompatibility targetUser best now).criteria ∧
      ∀ c ∈ seen, eligibleCandidate inProgress targetUser c →
        (calculateCompatibility targetUser c now).compatibility ≤ acc.bestCompatibility

theorem scanStep_inv (targetUser : UserProfile) (now : ℚ) (inProgress : List String)
    (seen : List UserProfile) (acc : ScanAcc) (c : UserProfile)
    (h : ScanInv targetUser now inProgress seen acc) :
    ScanInv targetUser now inProgress (seen ++ [c]) (scanStep targetUser now inProgress acc c) := by
  obtain ⟨bm, bc, mc⟩ := acc
  simp only [scanStep]
  cases bm with
  | none =>
      obtain ⟨hbc, hall⟩ := h
      have hbc0 : bc = 0 := hbc
      split_ifs with h1 h2 h3
      · refine ⟨hbc, fun x hx hel => ?_⟩
        rcases List.mem_append.mp hx with hx' | hx'
        · exact hall x hx' hel
        · rw [List.mem_singleton.mp hx'] at hel
          rw [hel.1] at h1
          exact absurd h1 (by decide)
      · refine ⟨hbc, fun x hx hel => ?_⟩
        rcases List.mem_append.mp hx with hx' | hx'
        · exact hall x hx' hel
        · rw [List.mem_singleton.mp hx'] at hel
          exact absurd h2 hel.2
      · refine ⟨List.mem_append.mpr (Or.inr (List.mem_singleton.mpr rfl)),
          ⟨Bool.eq_false_iff.mpr h1, h2⟩, rfl, h3.1, rfl, fun x hx hel => ?_⟩
        rcases List.mem_append.mp hx with hx' | hx'
        · exact le_of_lt (lt_of_le_of_lt (hall x hx' hel) h3.1)
        · rw [List.mem_singleton.mp hx']
      · refine ⟨hbc, fun x hx hel => ?_⟩
        rcases List.mem_append.mp hx with hx' | hx'
        · exact hall x hx' hel
        · rw [List.mem_singleton.mp hx']
          by_contra hgt
          push_neg at hgt
          refine h3 ⟨hgt, ?_⟩
          show bc < _
          rw [hbc0]
          exact lt_trans (by norm_num) hgt
  | some best =>
      obtain ⟨hmem, hel, hbc, hthr, hcr, hall⟩ := h
      split_ifs with h1 h2 h3
      · refine ⟨List.mem_append.mpr (Or.inl hmem), hel, hbc, hthr, hcr, fun x hx hxel => ?_⟩
        rcases List.mem_append.mp hx with hx' | hx'
        · exact hall x hx' hxel
        · rw [List.mem_singleton.mp hx'] at hxel
          rw [hxel.1] at h1
          exact absurd h1 (by decide)
      · refine ⟨List.mem_append.mpr (Or.inl hmem), hel, hbc, hthr, hcr, fun x hx hxel => ?_⟩
        rcases List.mem_append.mp hx with hx' | hx'
        · exact hall x hx' hxel
        · rw [List.mem_singleton.mp hx'] at hxel
          exact absurd h2 hxel.2
      · refine ⟨List.mem_append.mpr (Or.inr (List.mem_singleton.mpr rfl)),
          ⟨Bool.eq_false_iff.mpr h1, h2⟩, rfl, h3.1, rfl, fun x hx hxel => ?_⟩
        rcases List.mem_append.mp hx with hx' | hx'
        · exact le_of_lt (lt_of_le_of_lt (hall x hx' hxel) h3.2)
        · rw [List.mem_singleton.mp hx']
      · refine ⟨List.mem_append.mpr (Or.inl hmem), hel, hbc, hthr, hcr, fun x hx hxel => ?_⟩
        rcases List.mem_append.mp hx with hx' | hx'
        · exact hall x hx' hxel
        · rw [List.mem_singleton.mp hx']
          by_contra hgt
          push_neg at hgt
          exact h3 ⟨lt_trans hthr hgt, hgt⟩

theorem scan_foldl_inv (targetUser : UserProfile) (now : ℚ) (inProgress : List String)
    (l : List UserProfile) :
    ∀ (seen : List UserProfile) (acc : ScanAcc),
      ScanInv targetUser now inProgress seen acc →
      ScanInv targetUser now inProgress (seen ++ l)
        (l.foldl (scanStep targetUser now inProgress) acc) := by
  induction l with
  | nil => intro seen acc h; simpa using h
  | cons c rest ih =>
      intro seen acc h
      have step := scanStep_inv targetUser now inProgress seen acc c h
      have := ih (seen ++ [c]) (scanStep targetUser now inProgress acc c) step
      simpa [List.append_assoc] using this

/-- The scan of the whole waiting queue satisfies the loop invariant. -/
theorem scan_spec (targetUser : UserProfile) (now : ℚ) (s : MMState) :
    ScanInv targetUser now s.matchingInProgress s.waitingQueue
      (s.waitingQueue.foldl (scanStep targetUser now s.matchingInProgress)
        { bestMatch := none, bestCompatibility := 0, matchedCriteria := [] }) := by
  have := scan_foldl_inv targetUser now s.matchingInProgress s.waitingQueue []
    { bestMatch := none, bestCompatibility := 0, matchedCriteria := [] }
    ⟨rfl, by intro c hc; cases hc⟩
  simpa using this

theorem contains_true_iff (l : List String) (x : String) : l.contains x = true ↔ x ∈ l := by
  simp

theorem contains_false_iff (l : List String) (x : String) : l.contains x = false ↔ x ∉ l := by
  simp

theorem mem_setAdd_iff (l : List String) (x y : String) :
    y ∈ setAdd l x ↔ y ∈ l ∨ y = x := by
  unfold setAdd
  split_ifs with h
  · exact ⟨Or.inl, fun hy => hy.elim id (fun e => e ▸ (contains_true_iff l x).mp h)⟩
  · simp

theorem ScanInv_some (targetUser : UserProfile) (now : ℚ) (inProgress : List String)
    (seen : List UserProfile) (acc : ScanAcc) (best : UserProfile)
    (h : ScanInv targetUser now inProgress seen acc) (hbm : acc.bestMatch = some best) :
    best ∈ seen ∧ eligibleCandidate inProgress targetUser best ∧
    acc.bestCompatibility = (calculateCompatibility targetUser best now).compatibility ∧
    3 / 10 < acc.bestCompatibility ∧
    acc.matchedCriteria = (calculateCompatibility targetUser best now).criteria ∧
    ∀ c ∈ seen, eligibleCandidate inProgress targetUser c →
      (calculateCompatibility targetUser c now).compatibility ≤ acc.bestCompatibility := by
  unfold ScanInv at h
  rw [hbm] at h
  exact h

theorem ScanInv_none (targetUser : UserProfile) (now : ℚ) (inProgress : List String)
    (seen : List UserProfile) (acc : ScanAcc)
    (h : ScanInv targetUser now inProgress seen acc) (hbm : acc.bestMatch = none) :
    acc.bestCompatibility = 0 ∧
    ∀ c ∈ seen, eligibleCandidate inProgress targetUser c →
      (calculateCompatibility targetUser c now).compatibility ≤ 3 / 10 := by
  unfold ScanInv at h
  rw [hbm] at h
  exact h

/-- Full characterisation of a successful `findMatch`: the result pairs the
target with an eligible waiting candidate of above-threshold, maximal
compatibility, and the new state is exactly the `createMatch` update. -/
theorem findMatch_some_spec (targetUser : UserProfile) (now : ℚ) (s : MMState)
    (m : MatchResult) (s' : MMState)
    (h : findMatch targetUser now s = (some m, s')) :
    m.user1 = targetUser ∧ m.user2 ∈ s.waitingQueue ∧
    eligibleCandidate s.matchingInProgress targetUser m.user2 ∧
    m.compatibility = (calculateCompatibility targetUser m.user2 now).compatibility ∧
    3 / 10 < m.compatibility ∧
    (∀ c ∈ s.waitingQueue, eligibleCandidate s.matchingInProgress targetUser c →
      (calculateCompatibility targetUser c now).compatibility ≤ m.compatibility) ∧
    m.roomId = s.nextRoomId ∧
    s' = { waitingQueue := (s.waitingQueue.filter
              (fun p => p.socketId ≠ targetUser.socketId)).filter
              (fun p => p.socketId ≠ m.user2.socketId)
           activeMatches := s.activeMatches ++ [(s.nextRoomId, m)]
           matchingInProgress := setAdd (setAdd s.matchingInProgress targetUser.socketId)
              m.user2.socketId
           nextRoomId := s.nextRoomId + 1 } := by
  have inv := scan_spec targetUser now s
  simp only [findMatch] at h
  cases hbm : (s.waitingQueue.foldl (scanStep targetUser now s.matchingInProgress)
      { bestMatch := none, bestCompatibility := 0, matchedCriteria := [] }).bestMatch with
  | none =>
      rw [hbm] at h
      dsimp only at h
      exact absurd h (by simp)
  | some best =>
      rw [hbm] at h
      dsimp only at h
      rw [Prod.mk.injEq, Option.some.injEq] at h
      obtain ⟨hm, hs⟩ := h
      subst hm
      subst hs
      obtain ⟨hmem, hel, hbc, hthr, hcr, hall⟩ :=
        ScanInv_some targetUser now s.matchingInProgress s.waitingQueue _ best inv hbm
      exact ⟨rfl, hmem, hel, hbc, hthr, fun c hc hcel => hall c hc hcel, rfl, rfl⟩

/-- A failed `findMatch` leaves the state unchanged, and conversely failure is
forced when every eligible candidate is at or below the `0.3` threshold. -/
theorem findMatch_none_spec (targetUser : UserProfile) (now : ℚ) (s : MMState)
    (s' : MMState) (h : findMatch targetUser now s = (none, s')) :
    s' = s ∧
    ∀ c ∈ s.waitingQueue, eligibleCandidate s.matchingInProgress targetUser c →
      (calculateCompatibility targetUser c now).compatibility ≤ 3 / 10 := by
  have inv := scan_spec targetUser now s
  simp only [findMatch] at h
  cases hbm : (s.waitingQueue.foldl (scanStep targetUser now s.matchingInProgress)
      { bestMatch := none, bestCompatibility := 0, matchedCriteria := [] }).bestMatch with
  | none =>
      rw [hbm] at h
      dsimp only at h
      rw [Prod.mk.injEq] at h
      exact ⟨h.2.symm, (ScanInv_none targetUser now s.matchingInProgress s.waitingQueue _
        inv hbm).2⟩
  | some best =>
      rw [hbm] at h
      dsimp only at h
      exact absurd h (by simp)

theorem findMatch_eq_none (targetUser : UserProfile) (now : ℚ) (s : MMState)
    (hall : ∀ c ∈ s.waitingQueue, eligibleCandidate s.matchingInProgress targetUser c →
      (calculateCompatibility targetUser c now).compatibility ≤ 3 / 10) :
    findMatch targetUser now s = (none, s) := by
  have inv := scan_spec targetUser now s
  simp only [findMatch]
  cases hbm : (s.waitingQueue.foldl (scanStep targetUser now s.matchingInProgress)
      { bestMatch := none, bestCompatibility := 0, matchedCriteria := [] }).bestMatch with
  | none => rfl
  | some best =>
      exfalso
      obtain ⟨hmem, hel, hbc, hthr, _, _⟩ :=
        ScanInv_some targetUser now s.matchingInProgress s.waitingQueue _ best inv hbm
      have := hall best hmem hel
      rw [← hbc] at this
      exact absurd hthr (not_lt.mpr this)

/-! ### The at-most-one-session invariant -/

/-- Inductive invariant of the service state: active matches are pairwise
disjoint, and every participant of an active match is flagged mid-pairing. -/
def Inv (s : MMState) : Prop :=
  matchesDisjoint s ∧
  ∀ e ∈ s.activeMatches,
    e.2.user1.socketId ∈ s.matchingInProgress ∧ e.2.user2.socketId ∈ s.matchingInProgress

theorem not_inActiveMatch_of_not_inProgress (s : MMState) (hInv : Inv s) (sid : String)
    (hn : sid ∉ s.matchingInProgress) : ¬ inActiveMatch sid s := by
  rintro ⟨e, he, hin⟩
  rcases hin with h | h
  · exact hn (h ▸ (hInv.2 e he).1)
  · exact hn (h ▸ (hInv.2 e he).2)

theorem appendMatch_Inv (s : MMState) (m : MatchResult) (wq : List UserProfile)
    (rid nrid : ℕ) (mp' : List String) (hInv : Inv s)
    (ha : m.user1.socketId ∉ s.matchingInProgress)
    (hb : m.user2.socketId ∉ s.matchingInProgress)
    (hsub : ∀ x ∈ s.matchingInProgress, x ∈ mp')
    (ha' : m.user1.socketId ∈ mp') (hb' : m.user2.socketId ∈ mp') :
    Inv { waitingQueue := wq, activeMatches := s.activeMatches ++ [(rid, m)],
          matchingInProgress := mp', nextRoomId := nrid } := by
  obtain ⟨hdisj, hmp⟩ := hInv
  constructor
  · unfold matchesDisjoint at *
    dsimp only
    rw [List.pairwise_append]
    refine ⟨hdisj, by simp, ?_⟩
    intro e he e' he'
    rw [List.mem_singleton] at he'
    subst he'
    intro sid hin1 hin2
    rcases hin2 with h2 | h2 <;> rcases hin1 with h1 | h1
    · exact ha (h2 ▸ h1 ▸ (hmp e he).1)
    · exact ha (h2 ▸ h1 ▸ (hmp e he).2)
    · exact hb (h2 ▸ h1 ▸ (hmp e he).1)
    · exact hb (h2 ▸ h1 ▸ (hmp e he).2)
  · intro e he
    dsimp only at he ⊢
    rcases List.mem_append.mp he with h | h
    · exact ⟨hsub _ (hmp e h).1, hsub _ (hmp e h).2⟩
    · rw [List.mem_singleton] at h
      subst h
      exact ⟨ha', hb'⟩

theorem findMatch_Inv (targetUser : UserProfile) (now : ℚ) (s : MMState)
    (r : Option MatchResult) (s' : MMState) (hInv : Inv s)
    (ht : targetUser.socketId ∉ s.matchingInProgress)
    (h : findMatch targetUser now s = (r, s')) : Inv s' := by
  cases r with
  | none => rw [(findMatch_none_spec targetUser now s s' h).1]; exact hInv
  | some m =>
      obtain ⟨hu1, hmem, hel, _, _, _, _, hs⟩ := findMatch_some_spec targetUser now s m s' h
      subst hs
      have hb : m.user2.socketId ∉ s.matchingInProgress :=
        (contains_false_iff _ _).mp hel.1
      refine appendMatch_Inv s m _ _ _ _ hInv (hu1 ▸ ht) hb ?_ ?_ ?_
      · intro x hx
        exact (mem_setAdd_iff _ _ _).mpr (Or.inl ((mem_setAdd_iff _ _ _).mpr (Or.inl hx)))
      · rw [hu1]
        exact (mem_setAdd_iff _ _ _).mpr (Or.inl ((mem_setAdd_iff _ _ _).mpr (Or.inr rfl)))
      · exact (mem_setAdd_iff _ _ _).mpr (Or.inr rfl)

theorem addToQueue_Inv (profile : UserProfile) (now : ℚ) (s : MMState) (hInv : Inv s) :
    Inv (addToQueue profile now s).2 := by
  unfold addToQueue
  split_ifs with hguard
  · exact hInv
  · simp only [Bool.or_eq_true] at hguard
    push_neg at hguard
    have ht : profile.socketId ∉ s.matchingInProgress :=
      (contains_false_iff _ _).mp (Bool.eq_false_iff.mpr hguard.2)
    rcases hfm : findMatch profile now s with ⟨r, s1⟩
    have hInv1 : Inv s1 := findMatch_Inv profile now s r s1 hInv ht hfm
    cases r with
    | some m => exact hInv1
    | none =>
        dsimp only
        exact ⟨hInv1.1, hInv1.2⟩

theorem processStep_Inv (now : ℚ) (acc : List String × MMState) (u : UserProfile)
    (hInv : Inv acc.2) : Inv (processStep now acc u).2 := by
  obtain ⟨processed, s⟩ := acc
  unfold processStep
  dsimp only
  split_ifs with hskip
  · exact hInv
  · simp only [Bool.or_eq_true] at hskip
    push_neg at hskip
    have ht : u.socketId ∉ s.matchingInProgress :=
      (contains_false_iff _ _).mp (Bool.eq_false_iff.mpr hskip.2)
    rcases hfm : findMatch u now s with ⟨r, s1⟩
    have hInv1 : Inv s1 := findMatch_Inv u now s r s1 hInv ht hfm
    cases r with
    | some m => exact hInv1
    | none => exact hInv1

theorem foldl_processStep_Inv (now : ℚ) (l : List UserProfile) :
    ∀ acc : List String × MMState, Inv acc.2 → Inv ((l.foldl (processStep now) acc)).2 := by
  induction l with
  | nil => intro acc h; exact h
  | cons u rest ih =>
      intro acc h
      exact ih (processStep now acc u) (processStep_Inv now acc u h)

theorem processWaitingQueue_Inv (now : ℚ) (s : MMState) (hInv : Inv s) :
    Inv (processWaitingQueue now s) := by
  unfold processWaitingQueue
  split_ifs with h
  · exact hInv
  · exact foldl_processStep_Inv now s.waitingQueue ([], s) hInv

theorem removeFromQueue_Inv (socketId : String) (s : MMState) (hInv : Inv s)
    (hsafe : ¬ inActiveMatch socketId s) : Inv (removeFromQueue socketId s) := by
  obtain ⟨hdisj, hmp⟩ := hInv
  refine ⟨hdisj, ?_⟩
  intro e he
  have hmem := hmp e he
  have h1 : e.2.user1.socketId ≠ socketId := by
    intro hx
    exact hsafe ⟨e, he, Or.inl hx⟩
  have h2 : e.2.user2.socketId ≠ socketId := by
    intro hx
    exact hsafe ⟨e, he, Or.inr hx⟩
  constructor
  · exact List.mem_filter.mpr ⟨hmem.1, by simpa using h1⟩
  · exact List.mem_filter.mpr ⟨hmem.2, by simpa using h2⟩

theorem runOps_Inv (ops : List MMOp) :
    ∀ s : MMState, Inv s → safeRun s ops → Inv (runOps s ops) := by
  induction ops with
  | nil => intro s h _; exact h
  | cons op rest ih =>
      intro s h hsafe
      obtain ⟨hop, hrest⟩ := hsafe
      refine ih (applyOp s op) ?_ hrest
      cases op with
      | enqueue profile now => exact addToQueue_Inv profile now s h
      | tick now => exact processWaitingQueue_Inv now s h
      | dequeue socketId => exact removeFromQueue_Inv socketId s h hop

theorem Inv_initState : Inv initState := by
  refine ⟨List.Pairwise.nil, ?_⟩
  intro e he
  cases he

/-! ### Concrete profiles for counterexamples and witnesses -/

/-- Empty preference record (`preferences: {}` in the route handler). -/
def blankPrefs : Preferences := { language := none, verified := false }

/-- A plain text-mode profile with no preferences, queued at time `0`. -/
def mkProfile (id socketId : String) (interests : List String) : UserProfile :=
  { id := id, socketId := socketId, interests := interests, gender := none,
    genderPreference := none, countryPreference := none, chatMode := .text,
    location := none, preferences := blankPrefs, joinedAt := 0 }

def pA : UserProfile := mkProfile "A" "sA" []

def pB : UserProfile := mkProfile "B" "sB" []

def pC : UserProfile := mkProfile "C" "sC" []

/-- enqueue A; enqueue B (A and B are matched); dequeue A's socket (as the
disconnect handler does); enqueue a fresh profile with A's socket id;
enqueue C (A and C are matched while the A-B match is still active). -/
def c1Ops : List MMOp :=
  [.enqueue pA 0, .enqueue pB 0, .dequeue "sA", .enqueue pA 0, .enqueue pC 0]

/-- C1, counterexample: the claim quantifies over every sequence of
`addToQueue`/`processWaitingQueue`/`removeFromQueue` operations, but after the
concrete sequence `c1Ops` the socket id `"sA"` is a member of two entries of
`activeMatches` simultaneously: `removeFromQueue` deletes the socket from
`matchingInProgress` without ending its active match, so a later `createMatch`
inserts a second `MatchResult` holding a socket id that already occurs in the
table. -/
theorem c1_counterexample : ¬ matchesDisjoint (runOps initState c1Ops) := by decide

/-- C1 (amended): for every sequence of enqueue/tick/dequeue operations in
which `removeFromQueue` is only ever invoked on a socket id that is not a
member of a current active match (as is the case when socket ids are never
reused after a disconnect), no connection id is ever a member of two entries
of the active-match table: the entries of `activeMatches` are pairwise
disjoint in every reachable state. -/
theorem c1_at_most_one_session (ops : List MMOp) (hsafe : safeRun initState ops) :
    matchesDisjoint (runOps initState ops) :=
  (runOps_Inv ops initState Inv_initState hsafe).1

/-- C1, witness: the amended theorem applied to the concrete two-enqueue run
that creates one active match. -/
theorem c1_at_most_one_session_witness :
    matchesDisjoint (runOps initState [MMOp.enqueue pA 0, MMOp.enqueue pB 0]) :=
  c1_at_most_one_session [MMOp.enqueue pA 0, MMOp.enqueue pB 0] (by decide)

/-! ### Chat-mode hard constraint and best-match selection -/

theorem calculateCompatibility_mode_mismatch (user1 user2 : UserProfile) (now : ℚ)
    (h : user1.chatMode ≠ user2.chatMode) :
    calculateCompatibility user1 user2 now = { compatibility := 0, criteria := [] } := by
  simp [calculateCompatibility, h]

/-- Inversion of a successful `addToQueue`: the duplicate guard passed and the
immediate `findMatch` produced the result. -/
theorem addToQueue_some_inv (profile : UserProfile) (now : ℚ) (s : MMState)
    (m : MatchResult) (s' : MMState) (h : addToQueue profile now s = (some m, s')) :
    findMatch profile now s = (some m, s') ∧
    s.waitingQueue.any (fun p => p.socketId = profile.socketId) = false ∧
    s.matchingInProgress.contains profile.socketId = false := by
  unfold addToQueue at h
  split_ifs at h with hg
  · exact absurd h (by simp)
  · simp only [Bool.or_eq_true] at hg
    push_neg at hg
    rcases hfm : findMatch profile now s with ⟨r, s1⟩
    rw [hfm] at h
    cases r with
    | some m0 =>
        dsimp only at h
        rw [Prod.mk.injEq, Option.some.injEq] at h
        rw [h.1, h.2]
        exact ⟨rfl, Bool.eq_false_iff.mpr hg.1, Bool.eq_false_iff.mpr hg.2⟩
    | none =>
        dsimp only at h
        exact absurd h (by simp)

/-- Every match produced by a `findMatch` pairs two profiles of equal chat
mode: the result clears the `0.3` threshold, while a mode mismatch scores
exactly `0`. -/
theorem findMatch_some_modes_eq (targetUser : UserProfile) (now : ℚ) (s : MMState)
    (m : MatchResult) (s' : MMState) (h : findMatch targetUser now s = (some m, s')) :
    m.user1.chatMode = m.user2.chatMode := by
  obtain ⟨hu1, _, _, hcomp, hthr, _, _, _⟩ := findMatch_some_spec targetUser now s m s' h
  by_contra hne
  have hne' : targetUser.chatMode ≠ m.user2.chatMode := by
    rw [← hu1]; exact hne
  rw [calculateCompatibility_mode_mismatch targetUser m.user2 now hne'] at hcomp
  rw [hcomp] at hthr
  norm_num at hthr

theorem findMatch_matches_superset (targetUser : UserProfile) (now : ℚ) (s : MMState)
    (r : Option MatchResult) (s' : MMState) (h : findMatch targetUser now s = (r, s')) :
    ∀ e ∈ s'.activeMatches,
      e ∈ s.activeMatches ∨ e.2.user1.chatMode = e.2.user2.chatMode := by
  intro e he
  cases r with
  | none =>
      rw [(findMatch_none_spec targetUser now s s' h).1] at he
      exact Or.inl he
  | some m =>
      obtain ⟨_, _, _, _, _, _, _, hs⟩ := findMatch_some_spec targetUser now s m s' h
      subst hs
      dsimp only at he
      rcases List.mem_append.mp he with h' | h'
      · exact Or.inl h'
      · rw [List.mem_singleton] at h'
        subst h'
        exact Or.inr (findMatch_some_modes_eq targetUser now s m _ h)

theorem processStep_matches_superset (now : ℚ) (acc : List String × MMState)
    (u : UserProfile) :
    ∀ e ∈ (processStep now acc u).2.activeMatches,
      e ∈ acc.2.activeMatches ∨ e.2.user1.chatMode = e.2.user2.chatMode := by
  obtain ⟨processed, s⟩ := acc
  intro e he
  unfold processStep at he
  dsimp only at he
  split_ifs at he with hskip
  · exact Or.inl he
  · rcases hfm : findMatch u now s with ⟨r, s1⟩
    rw [hfm] at he
    cases r with
    | some m => exact findMatch_matches_superset u now s (some m) s1 hfm e he
    | none => exact findMatch_matches_superset u now s none s1 hfm e he

theorem foldl_processStep_matches_superset (now : ℚ) (l : List UserProfile) :
    ∀ acc : List String × MMState,
      ∀ e ∈ ((l.foldl (processStep now) acc)).2.activeMatches,
        e ∈ acc.2.activeMatches ∨ e.2.user1.chatMode = e.2.user2.chatMode := by
  induction l with
  | nil => intro acc e he; exact Or.inl he
  | cons u rest ih =>
      intro acc e he
      rcases ih (processStep now acc u) e he with h | h
      · exact processStep_matches_superset now acc u e h
      · exact Or.inr h

/-- C3: two profiles with different chat modes score `0` with an empty
criteria list, and no match ever created by `addToQueue` or
`processWaitingQueue` pairs two profiles of different chat modes (so such
profiles are never paired, whatever their other attributes). -/
theorem c3_chat_mode_hard_constraint :
    (∀ (user1 user2 : UserProfile) (now : ℚ), user1.chatMode ≠ user2.chatMode →
      calculateCompatibility user1 user2 now = { compatibility := 0, criteria := [] }) ∧
    (∀ (profile : UserProfile) (now : ℚ) (s : MMState) (m : MatchResult) (s' : MMState),
      addToQueue profile now s = (some m, s') → m.user1.chatMode = m.user2.chatMode) ∧
    (∀ (now : ℚ) (s : MMState) (e : ℕ × MatchResult),
      e ∈ (processWaitingQueue now s).activeMatches →
      e ∈ s.activeMatches ∨ e.2.user1.chatMode = e.2.user2.chatMode) := by
  refine ⟨calculateCompatibility_mode_mismatch, ?_, ?_⟩
  · intro profile now s m s' h
    exact findMatch_some_modes_eq profile now s m s' (addToQueue_some_inv profile now s m s' h).1
  · intro now s e he
    unfold processWaitingQueue at he
    split_ifs at he with hlen
    · exact Or.inl he
    · exact foldl_processStep_matches_superset now s.waitingQueue ([], s) e he

/-- A video-mode profile used to exercise the chat-mode mismatch case. -/
def pVideo : UserProfile :=
  { mkProfile "V" "sV" [] with chatMode := .video }

/-- The state after enqueueing `pA` into the empty service. -/
def stateA : MMState := (addToQueue pA 0 initState).2

/-- The match created when `pB` is enqueued while `pA` waits. -/
def matchBA : MatchResult :=
  { user1 := pB, user2 := pA, roomId := 0, compatibility := 7 / 10,
    matchedOn := ["chat_mode", "gender_preference", "country_preference"] }

/-- The service state after that match is created. -/
def stateBA : MMState :=
  { waitingQueue := [], activeMatches := [(0, matchBA)],
    matchingInProgress := ["sB", "sA"], nextRoomId := 1 }

/-- C3, witness: the three conjuncts applied at concrete inputs — a
text/video pair scores zero with no criteria, the concrete enqueue of `pB`
against waiting `pA` yields a match of equal chat modes, and a tick from
`stateBA` creates no mixed-mode match. -/
theorem c3_chat_mode_hard_constraint_witness :
    calculateCompatibility pA pVideo 0 = { compatibility := 0, criteria := [] } ∧
    matchBA.user1.chatMode = matchBA.user2.chatMode ∧
    ((0, matchBA) ∈ stateBA.activeMatches ∨
      matchBA.user1.chatMode = matchBA.user2.chatMode) :=
  ⟨c3_chat_mode_hard_constraint.1 pA pVideo 0 (by decide),
   c3_chat_mode_hard_constraint.2.1 pB 0 stateA matchBA stateBA (by decide),
   c3_chat_mode_hard_constraint.2.2 0 stateBA (0, matchBA) (by decide)⟩

/-- C4: for an admitted profile (duplicate guard passed), the immediate scan
of `addToQueue` considers exactly the waiting entries that are neither flagged
mid-pairing nor the profile itself: a returned match pairs the profile with an
eligible candidate whose compatibility strictly exceeds the `0.3` threshold
and is maximal among all eligible candidates; and when no eligible candidate
exceeds the threshold, `addToQueue` returns no match and appends the profile
to the waiting queue. -/
theorem c4_best_match_selection (profile : UserProfile) (now : ℚ) (s : MMState)
    (hq : s.waitingQueue.any (fun p => p.socketId = profile.socketId) = false)
    (hmp : s.matchingInProgress.contains profile.socketId = false) :
    (∀ (m : MatchResult) (s' : MMState), addToQueue profile now s = (some m, s') →
      m.user1 = profile ∧ m.user2 ∈ s.waitingQueue ∧
      eligibleCandidate s.matchingInProgress profile m.user2 ∧
      3 / 10 < (calculateCompatibility profile m.user2 now).compatibility ∧
      ∀ c ∈ s.waitingQueue, eligibleCandidate s.matchingInProgress profile c →
        (calculateCompatibility profile c now).compatibility ≤
          (calculateCompatibility profile m.user2 now).compatibility) ∧
    ((∀ c ∈ s.waitingQueue, eligibleCandidate s.matchingInProgress profile c →
        (calculateCompatibility profile c now).compatibility ≤ 3 / 10) →
      addToQueue profile now s =
        (none, { s with waitingQueue := s.waitingQueue ++ [profile] })) := by
  constructor
  · intro m s' h
    obtain ⟨hfm, _, _⟩ := addToQueue_some_inv profile now s m s' h
    obtain ⟨hu1, hmem, hel, hcomp, hthr, hmax, _, _⟩ :=
      findMatch_some_spec profile now s m s' hfm
    rw [hcomp] at hthr hmax
    exact ⟨hu1, hmem, hel, hthr, hmax⟩
  · intro hall
    unfold addToQueue
    rw [if_neg (by simp [hq, (contains_false_iff _ _).mp hmp])]
    rw [findMatch_eq_none profile now s hall]

/-- C4, witness: against the concrete state where only `pA` waits, enqueueing
`pB` selects `pA` (eligible, above threshold, maximal), and against a state
whose only waiting entry is flagged mid-pairing, enqueueing `pC` finds no
candidate and appends `pC` to the queue. -/
theorem c4_best_match_selection_witness :
    (matchBA.user1 = pB ∧ matchBA.user2 ∈ stateA.waitingQueue ∧
      eligibleCandidate stateA.matchingInProgress pB matchBA.user2 ∧
      3 / 10 < (calculateCompatibility pB matchBA.user2 0).compatibility ∧
      ∀ c ∈ stateA.waitingQueue, eligibleCandidate stateA.matchingInProgress pB c →
        (calculateCompatibility pB c 0).compatibility ≤
          (calculateCompatibility pB matchBA.user2 0).compatibility) ∧
    addToQueue pC 0 stateBA =
      (none, { stateBA with waitingQueue := stateBA.waitingQueue ++ [pC] }) :=
  ⟨(c4_best_match_selection pB 0 stateA (by decide) (by decide)).1 matchBA stateBA (by decide),
   (c4_best_match_selection pC 0 stateBA (by decide) (by decide)).2 (by decide)⟩

/-! ### Score bounds and normalisation -/

theorem genderScore_ge (user1 user2 : UserProfile) : -1 ≤ genderScore user1 user2 := by
  unfold genderScore
  split_ifs <;> norm_num

theorem countryScore_ge (user1 user2 : UserProfile) : -1 ≤ countryScore user1 user2 := by
  unfold countryScore
  split_ifs <;> norm_num

theorem interestScore_nonneg (user1 user2 : UserProfile) : 0 ≤ interestScore user1 user2 := by
  unfold interestScore
  split_ifs with h
  · exact le_min (by norm_num) (by positivity)
  · exact le_rfl

theorem locationScore_nonneg (user1 user2 : UserProfile) : 0 ≤ locationScore user1 user2 := by
  unfold locationScore
  rcases user1.location with _ | l1 <;> rcases user2.location with _ | l2 <;> dsimp only
  · exact le_rfl
  · exact le_rfl
  · exact le_rfl
  · split_ifs <;> norm_num

theorem languageScore_nonneg (user1 user2 : UserProfile) : 0 ≤ languageScore user1 user2 := by
  unfold languageScore
  split_ifs <;> norm_num

theorem verifiedScore_nonneg (user1 user2 : UserProfile) : 0 ≤ verifiedScore user1 user2 := by
  unfold verifiedScore
  split_ifs <;> norm_num

theorem waitBonus_nonneg (user1 user2 : UserProfile) (now : ℚ)
    (h1 : user1.joinedAt ≤ now) (h2 : user2.joinedAt ≤ now) :
    0 ≤ waitBonus user1 user2 now := by
  unfold waitBonus
  refine le_min (by norm_num) ?_
  have : (0:ℚ) ≤ (now - user1.joinedAt) + (now - user2.joinedAt) := by linarith
  positivity

theorem rawScore_ge_one (user1 user2 : UserProfile) (now : ℚ)
    (h1 : user1.joinedAt ≤ now) (h2 : user2.joinedAt ≤ now) :
    1 ≤ rawScore user1 user2 now := by
  unfold rawScore
  have hg := genderScore_ge user1 user2
  have hc := countryScore_ge user1 user2
  have hi := interestScore_nonneg user1 user2
  have hl := locationScore_nonneg user1 user2
  have hlang := languageScore_nonneg user1 user2
  have hv := verifiedScore_nonneg user1 user2
  have hw := waitBonus_nonneg user1 user2 now h1 h2
  linarith

/-- C5: provided neither profile's `joinedAt` lies in the future, the
compatibility value equals `clamp(score / maxScore, 0, 1)` whenever the chat
modes agree (the code's `Math.min(1, score / 10)` never has to clamp from
below, because the accumulated score is at least `1`), and the value always
lies in the closed interval `[0, 1]` — also when both the gender-preference
and the country-preference penalties apply. -/
theorem c5_clamp_and_bounds (user1 user2 : UserProfile) (now : ℚ)
    (h1 : user1.joinedAt ≤ now) (h2 : user2.joinedAt ≤ now) :
    (user1.chatMode = user2.chatMode →
      (calculateCompatibility user1 user2 now).compatibility =
        max 0 (min 1 (rawScore user1 user2 now / 10))) ∧
    0 ≤ (calculateCompatibility user1 user2 now).compatibility ∧
    (calculateCompatibility user1 user2 now).compatibility ≤ 1 := by
  have hraw := rawScore_ge_one user1 user2 now h1 h2
  have hmin : (0:ℚ) ≤ min 1 (rawScore user1 user2 now / 10) :=
    le_min (by norm_num) (by linarith)
  constructor
  · intro hmode
    simp only [calculateCompatibility, if_pos hmode]
    exact (max_eq_right hmin).symm
  · by_cases hmode : user1.chatMode = user2.chatMode
    · simp only [calculateCompatibility, if_pos hmode]
      exact ⟨hmin, min_le_left _ _⟩
    · simp only [calculateCompatibility, if_neg hmode]
      norm_num

/-- Two profiles exercising both penalties: each has a gender preference the
other does not meet and a specific country preference different from the
other's, so the `-1` gender and `-1` country terms both apply. -/
def pPenalty1 : UserProfile :=
  { mkProfile "P1" "sP1" [] with
    genderPreference := some "female"
    countryPreference := some "India" }

def pPenalty2 : UserProfile :=
  { mkProfile "P2" "sP2" [] with
    genderPreference := some "male"
    countryPreference := some "Brazil" }

/-- C5, witness: the theorem applied to the concrete penalised pair at
`now = 0` (both penalties apply, score `3 - 1 - 1 = 1`, compatibility
`1/10 = clamp`). -/
theorem c5_clamp_and_bounds_witness :
    (calculateCompatibility pPenalty1 pPenalty2 0).compatibility =
      max 0 (min 1 (rawScore pPenalty1 pPenalty2 0 / 10)) ∧
    0 ≤ (calculateCompatibility pPenalty1 pPenalty2 0).compatibility ∧
    (calculateCompatibility pPenalty1 pPenalty2 0).compatibility ≤ 1 :=
  ⟨(c5_clamp_and_bounds pPenalty1 pPenalty2 0 (by decide) (by decide)).1 (by decide),
   (c5_clamp_and_bounds pPenalty1 pPenalty2 0 (by decide) (by decide)).2⟩

/-! ### Monotonicity in the shared-interest count -/

theorem interestScore_mono_of_count (user1 user2 user3 user4 : UserProfile)
    (hcount : sharedInterestCount user1 user2 ≤ sharedInterestCount user3 user4) :
    interestScore user1 user2 ≤ interestScore user3 user4 := by
  unfold interestScore
  split_ifs with hm hn hn
  · refine min_le_min le_rfl ?_
    have : (sharedInterestCount user1 user2 : ℚ) ≤ sharedInterestCount user3 user4 :=
      Nat.cast_le.mpr hcount
    nlinarith
  · exact absurd (lt_of_lt_of_le hm hcount) hn
  · exact le_min (by norm_num) (by positivity)
  · exact le_rfl

/-- C6: with both chat modes equal and every attribute other than the two
interest lists held fixed, replacing the interest lists in a way that does not
decrease the shared-interest count never decreases the compatibility value:
the shared-interest term is non-decreasing in the overlap count and capped at
`2`, and the final `min 1 (score / 10)` is monotone. -/
theorem c6_shared_interest_monotone (user1 user2 : UserProfile)
    (interests1 interests2 : List String) (now : ℚ)
    (hmode : user1.chatMode = user2.chatMode)
    (hcount : sharedInterestCount user1 user2 ≤
      sharedInterestCount { user1 with interests := interests1 }
        { user2 with interests := interests2 }) :
    (calculateCompatibility user1 user2 now).compatibility ≤
      (calculateCompatibility { user1 with interests := interests1 }
        { user2 with interests := interests2 } now).compatibility := by
  have hg : genderScore { user1 with interests := interests1 }
      { user2 with interests := interests2 } = genderScore user1 user2 := rfl
  have hc : countryScore { user1 with interests := interests1 }
      { user2 with interests := interests2 } = countryScore user1 user2 := rfl
  have hl : locationScore { user1 with interests := interests1 }
      { user2 with interests := interests2 } = locationScore user1 user2 := rfl
  have hlang : languageScore { user1 with interests := interests1 }
      { user2 with interests := interests2 } = languageScore user1 user2 := rfl
  have hv : verifiedScore { user1 with interests := interests1 }
      { user2 with interests := interests2 } = verifiedScore user1 user2 := rfl
  have hw : waitBonus { user1 with interests := interests1 }
      { user2 with interests := interests2 } now = waitBonus user1 user2 now := rfl
  have hi := interestScore_mono_of_count user1 user2
    { user1 with interests := interests1 } { user2 with interests := interests2 } hcount
  have hraw : rawScore user1 user2 now ≤
      rawScore { user1 with interests := interests1 }
        { user2 with interests := interests2 } now := by
    unfold rawScore
    rw [hg, hc, hl, hlang, hv, hw]
    linarith
  simp only [calculateCompatibility, if_pos hmode]
  exact min_le_min le_rfl (by linarith)

def pTagX : UserProfile := mkProfile "X" "sX" ["music"]

def pTagY : UserProfile := mkProfile "Y" "sY" ["music", "film"]

/-- C6, witness: growing `pTagX`'s list from `["music"]` to
`["music", "film"]` raises the overlap with `pTagY` from `1` to `2` and the
theorem yields that the compatibility does not decrease. -/
theorem c6_shared_interest_monotone_witness :
    (calculateCompatibility pTagX pTagY 0).compatibility ≤
      (calculateCompatibility { pTagX with interests := ["music", "film"] }
        { pTagY with interests := pTagY.interests } 0).compatibility :=
  c6_shared_interest_monotone pTagX pTagY ["music", "film"] pTagY.interests 0
    (by decide) (by decide)

/-! ### Symmetry of the scorer -/

theorem beq_comm_optStr (a b : Option String) : (a == b) = (b == a) := by
  by_cases h : a = b
  · subst h; rfl
  · rw [beq_eq_false_iff_ne.mpr h, beq_eq_false_iff_ne.mpr (Ne.symm h)]

theorem checkGenderCompatibility_comm (user1 user2 : UserProfile) :
    checkGenderCompatibility user1 user2 = checkGenderCompatibility user2 user1 := by
  unfold checkGenderCompatibility
  rw [Bool.and_comm (!truthy user2.genderPreference) (!truthy user1.genderPreference),
    Bool.and_comm
      (!truthy user2.genderPreference ||
        (truthy user1.gender && user2.genderPreference == user1.gender))
      (!truthy user1.genderPreference ||
        (truthy user2.gender && user1.genderPreference == user2.gender))]

theorem checkCountryCompatibility_comm (user1 user2 : UserProfile) :
    checkCountryCompatibility user1 user2 = checkCountryCompatibility user2 user1 := by
  unfold checkCountryCompatibility
  rw [Bool.and_comm
      (!truthy user2.countryPreference || isAnyOnEarth user2.countryPreference)
      (!truthy user1.countryPreference || isAnyOnEarth user1.countryPreference),
    Bool.or_comm (isAnyOnEarth user2.countryPreference && truthy user1.countryPreference)
      (isAnyOnEarth user1.countryPreference && truthy user2.countryPreference),
    beq_comm_optStr user2.countryPreference user1.countryPreference]

theorem genderScore_comm (user1 user2 : UserProfile) :
    genderScore user1 user2 = genderScore user2 user1 := by
  unfold genderScore
  rw [checkGenderCompatibility_comm user1 user2,
    Bool.or_comm (truthy user1.genderPreference) (truthy user2.genderPreference)]

theorem countryScore_comm (user1 user2 : UserProfile) :
    countryScore user1 user2 = countryScore user2 user1 := by
  unfold countryScore
  rw [checkCountryCompatibility_comm user1 user2,
    Bool.or_comm
      (truthy user1.countryPreference && !isAnyOnEarth user1.countryPreference)
      (truthy user2.countryPreference && !isAnyOnEarth user2.countryPreference)]

theorem locationScore_comm (user1 user2 : UserProfile) :
    locationScore user1 user2 = locationScore user2 user1 := by
  unfold locationScore
  rcases user1.location with _ | l1 <;> rcases user2.location with _ | l2 <;> dsimp only
  by_cases hc : l1.country = l2.country
  · rw [if_pos hc, if_pos hc.symm]
  · rw [if_neg hc, if_neg (show ¬ l2.country = l1.country from fun e => hc e.symm)]
    by_cases ht : l1.timezone = l2.timezone
    · rw [if_pos ht, if_pos ht.symm]
    · rw [if_neg ht, if_neg (show ¬ l2.timezone = l1.timezone from fun e => ht e.symm)]

theorem languageScore_comm (user1 user2 : UserProfile) :
    languageScore user1 user2 = languageScore user2 user1 := by
  unfold languageScore
  rw [Bool.and_comm (truthy user1.preferences.language) (truthy user2.preferences.language),
    beq_comm_optStr user1.preferences.language user2.preferences.language]

theorem verifiedScore_comm (user1 user2 : UserProfile) :
    verifiedScore user1 user2 = verifiedScore user2 user1 := by
  unfold verifiedScore
  rw [Bool.and_comm user1.preferences.verified user2.preferences.verified]

theorem waitBonus_comm (user1 user2 : UserProfile) (now : ℚ) :
    waitBonus user1 user2 now = waitBonus user2 user1 now := by
  unfold waitBonus
  have : (now - user1.joinedAt) + (now - user2.joinedAt)
      = (now - user2.joinedAt) + (now - user1.joinedAt) := by ring
  rw [this]

theorem filter_mem_length_comm (l1 l2 : List String)
    (h1 : l1.Nodup) (h2 : l2.Nodup) :
    (l1.filter (fun x => l2.contains x)).length
      = (l2.filter (fun x => l1.contains x)).length := by
  have e1 : (l1.filter (fun x => l2.contains x)).toFinset = l1.toFinset ∩ l2.toFinset := by
    ext x
    simp [List.mem_filter]
  have e2 : (l2.filter (fun x => l1.contains x)).toFinset = l2.toFinset ∩ l1.toFinset := by
    ext x
    simp [List.mem_filter]
  have c1 := List.toFinset_card_of_nodup (h1.filter (fun x => l2.contains x))
  have c2 := List.toFinset_card_of_nodup (h2.filter (fun x => l1.contains x))
  rw [← c1, ← c2, e1, e2, Finset.inter_comm]

theorem sharedInterestCount_comm (user1 user2 : UserProfile)
    (h1 : user1.interests.Nodup) (h2 : user2.interests.Nodup) :
    sharedInterestCount user1 user2 = sharedInterestCount user2 user1 :=
  filter_mem_length_comm user1.interests user2.interests h1 h2

theorem interestScore_comm_of_nodup (user1 user2 : UserProfile)
    (h1 : user1.interests.Nodup) (h2 : user2.interests.Nodup) :
    interestScore user1 user2 = interestScore user2 user1 := by
  unfold interestScore
  rw [sharedInterestCount_comm user1 user2 h1 h2]

/-- Profiles that break symmetry: a duplicated tag on one side is counted
twice by `Array.prototype.filter`. -/
def pDup : UserProfile := mkProfile "D" "sD" ["music", "music"]

def pSingle : UserProfile := mkProfile "S" "sS" ["music"]

/-- C10, counterexample: with `["music", "music"]` against `["music"]` the
shared-interest count is `2` one way and `1` the other, and the compatibility
values differ (`8/10` versus `7.5/10`), so the scorer is not symmetric when an
interest list contains repeated tags — the claim's "including when the
interest lists contain repeated tags" fails. -/
theorem c10_counterexample :
    (calculateCompatibility pDup pSingle 0).compatibility ≠
      (calculateCompatibility pSingle pDup 0).compatibility := by decide

/-- C10 (amended): the compatibility value is symmetric in the two profiles
whenever neither interest list contains a repeated tag (then the two
overlap counts agree and every other term of the score is symmetric). -/
theorem c10_symmetry_of_nodup (user1 user2 : UserProfile) (now : ℚ)
    (h1 : user1.interests.Nodup) (h2 : user2.interests.Nodup) :
    (calculateCompatibility user1 user2 now).compatibility =
      (calculateCompatibility user2 user1 now).compatibility := by
  by_cases hmode : user1.chatMode = user2.chatMode
  · simp only [calculateCompatibility, if_pos hmode, if_pos hmode.symm]
    unfold rawScore
    rw [genderScore_comm user1 user2, countryScore_comm user1 user2,
      interestScore_comm_of_nodup user1 user2 h1 h2, locationScore_comm user1 user2,
      languageScore_comm user1 user2, verifiedScore_comm user1 user2,
      waitBonus_comm user1 user2 now]
  · simp only [calculateCompatibility, if_neg hmode,
      if_neg (show ¬ user2.chatMode = user1.chatMode from fun e => hmode e.symm)]

/-- C10, witness: the amended symmetry applied to two concrete
duplicate-free profiles. -/
theorem c10_symmetry_of_nodup_witness :
    (calculateCompatibility pTagX pTagY 0).compatibility =
      (calculateCompatibility pTagY pTagX 0).compatibility :=
  c10_symmetry_of_nodup pTagX pTagY 0 (by decide) (by decide)

/-! ### The Socket.IO route layer (src/server/routes.ts)

`registerRoutes` keeps two module-level legacy maps, `waitingUsers` and
`activeChats`.  Neither is ever written by any handler (`activeChats.set` and
`waitingUsers.set` occur nowhere in the file), so both stay empty; the
`join-queue` handler stores matches only in `matchmakingService.activeMatches`,
and `matchmakingService.endMatch` is never invoked anywhere in the repository.
Socket emissions are recorded in an explicit event ledger. -/

/-- A socket event emitted by a route handler: to one socket
(`socket.emit` / `io.to(id).emit`) or to a room (`socket.to(roomId).emit`). -/
inductive Emit where
  | toSocket (socketId : String) (event : String)
  | toRoom (roomId : ℕ) (event : String)
deriving DecidableEq, Repr

/-- Route-layer state: the matchmaking service state, the legacy `activeChats`
map, and the ledger of emitted socket events. -/
structure RoutesState where
  mm : MMState
  activeChats : List (ℕ × MatchResult)
  events : List Emit
deriving DecidableEq, Repr

def routesInit : RoutesState := { mm := initState, activeChats := [], events := [] }

/-- The `join-queue` handler (matchmaking part): `addToQueue`; on a match,
`match-found` is emitted to the connecting socket (`match.user1`) and to
`match.user2.socketId`; otherwise `waiting-for-match` to the connecting
socket.  `activeChats` is not written. -/
def joinQueue (profile : UserProfile) (now : ℚ) (rs : RoutesState) : RoutesState :=
  match addToQueue profile now rs.mm with
  | (some m, mm') =>
      { rs with
        mm := mm'
        events := rs.events ++ [Emit.toSocket m.user1.socketId "match-found",
          Emit.toSocket m.user2.socketId "match-found"] }
  | (none, mm') =>
      { rs with
        mm := mm'
        events := rs.events ++ [Emit.toSocket profile.socketId "waiting-for-match"] }

/-- The `disconnect` handler: removes the socket from the matchmaking queue
(`removeFromQueue`), then scans `activeChats` for the first room containing
the socket, emitting `stranger-disconnected` to that room and deleting the
entry (with `break`).  It never calls `matchmakingService.endMatch`. -/
def disconnectHandler (socketId : String) (rs : RoutesState) : RoutesState :=
  let rs1 : RoutesState := { rs with mm := removeFromQueue socketId rs.mm }
  match (rs1.activeChats.filter
      (fun e => e.2.user1.socketId = socketId ∨ e.2.user2.socketId = socketId)).head? with
  | some (roomId, _) =>
      { rs1 with
        activeChats := rs1.activeChats.filter (fun e => e.1 ≠ roomId)
        events := rs1.events ++ [Emit.toRoom roomId "stranger-disconnected"] }
  | none => rs1

/-- The staleness sweep fires inside `MatchmakingService` (a `setInterval` in
its constructor); the service holds no reference to the socket server, so the
sweep can only change the service state and emits no socket event. -/
def sweepStale (now : ℚ) (rs : RoutesState) : RoutesState :=
  { rs with mm := cleanupStaleEntries now rs.mm }

/-- The route state after `pA` and `pB` join the queue (they are matched)
and `pB`'s socket then disconnects. -/
def c2Final : RoutesState :=
  disconnectHandler "sB" (joinQueue pB 0 (joinQueue pA 0 routesInit))

/-- C2, evaluation at the failing input: `pA` and `pB` are paired; `pB`
disconnects.  Afterwards `getAllActiveMatches` still contains the A–B match
(the disconnect handler never calls `endMatch`), and no
`stranger-disconnected` event was emitted to anyone (the `activeChats` map the
handler scans is never populated) — only B's waiting entry and mid-pairing
flag are cleared, so both halves of the claim fail on the code. -/
theorem c2_disconnect_eval :
    getAllActiveMatches c2Final.mm = [matchBA] ∧
    matchBA.user1.socketId = "sB" ∧ matchBA.user2.socketId = "sA" ∧
    c2Final.events = [Emit.toSocket "sA" "waiting-for-match",
      Emit.toSocket "sB" "match-found", Emit.toSocket "sA" "match-found"] ∧
    c2Final.mm.waitingQueue = [] := by decide

/-! ### The staleness sweep -/

theorem cleanupStep_waiting_subset (now : ℚ) (st : MMState) (user : UserProfile) :
    ∀ p ∈ ((if 600000 < now - user.joinedAt then
        removeFromQueue user.socketId st else st)).waitingQueue,
      p ∈ st.waitingQueue := by
  intro p hp
  split_ifs at hp with h
  · exact (List.mem_filter.mp hp).1
  · exact hp

theorem cleanup_foldl_keeps_absent (now : ℚ) (socketId : String)
    (l : List UserProfile) :
    ∀ st : MMState, (∀ p ∈ st.waitingQueue, p.socketId ≠ socketId) →
      ∀ p ∈ (l.foldl (fun st user =>
          if 600000 < now - user.joinedAt then removeFromQueue user.socketId st else st)
          st).waitingQueue,
        p.socketId ≠ socketId := by
  induction l with
  | nil => intro st h p hp; exact h p hp
  | cons user rest ih =>
      intro st h p hp
      refine ih _ ?_ p hp
      intro q hq
      exact h q (cleanupStep_waiting_subset now st user q hq)

/-- C7 (amended): one run of the staleness sweep removes every waiting entry
whose age strictly exceeds the 10-minute threshold, without any enqueue having
to arrive — but no socket event is emitted, so the entry's owner is not
notified (the source only writes a server-side log line). -/
theorem c7_stale_sweep_removes_without_notice (now : ℚ) (rs : RoutesState)
    (u : UserProfile) (hu : u ∈ rs.mm.waitingQueue)
    (hstale : 600000 < now - u.joinedAt) :
    (∀ p ∈ (sweepStale now rs).mm.waitingQueue, p.socketId ≠ u.socketId) ∧
    (sweepStale now rs).events = rs.events := by
  refine ⟨?_, rfl⟩
  intro p hp
  obtain ⟨l1, l2, hsplit⟩ := List.append_of_mem hu
  show p.socketId ≠ u.socketId
  have hp' : p ∈ (cleanupStaleEntries now rs.mm).waitingQueue := hp
  unfold cleanupStaleEntries at hp'
  rw [hsplit, List.foldl_append, List.foldl_cons, if_pos hstale] at hp'
  refine cleanup_foldl_keeps_absent now u.socketId l2 _ ?_ p hp'
  intro q hq
  have := (List.mem_filter.mp hq).2
  simpa using this

/-- A profile that joined at time `0` and has gone stale by `now = 600001`. -/
def pStale : UserProfile := mkProfile "St" "sSt" []

def c7Before : RoutesState := joinQueue pStale 0 routesInit

def c7After : RoutesState := sweepStale 600001 c7Before

/-- C7, counterexample: at the concrete stale state the sweep removes the
entry, yet the event ledger is unchanged — no notification of any kind is
delivered to the entry's owner, so the claim's notification clause is false
on the code. -/
theorem c7_counterexample :
    pStale ∈ c7Before.mm.waitingQueue ∧ (600000 : ℚ) < 600001 - pStale.joinedAt ∧
    c7After.mm.waitingQueue = [] ∧ c7After.events = c7Before.events := by decide

/-- C7, witness: the amended theorem applied at the concrete stale state. -/
theorem c7_stale_sweep_witness :
    (∀ p ∈ (sweepStale 600001 c7Before).mm.waitingQueue, p.socketId ≠ pStale.socketId) ∧
    (sweepStale 600001 c7Before).events = c7Before.events :=
  c7_stale_sweep_removes_without_notice 600001 c7Before pStale (by decide) (by decide)

/-! ### The presence service

Embedding of `PresenceService`: three insertion-ordered maps
(`onlineUsers : userId → OnlineUser`, `userSockets : userId → socketId`,
`socketUsers : socketId → userId`) and a ledger of the presence events the
service broadcasts (`user_online` / `user_offline` / `user_activity` /
`bulk_update`, each carrying the user concerned). -/

/-- `OnlineUser` record of the presence service. -/
structure OnlineUser where
  id : String
  name : String
  avatar : Option String
  tags : List String
  country : String
  socketId : String
  joinedAt : ℚ
  lastActivity : ℚ
deriving DecidableEq, Repr

/-- The `userInfo` argument of `setUserOnline`. -/
structure UserInfo where
  name : String
  avatar : Option String
  tags : List String
  country : String
deriving DecidableEq, Repr

/-- A broadcast presence event, by type and the user id it concerns. -/
structure PresenceEvent where
  type : String
  userId : String
deriving DecidableEq, Repr

structure PresenceState where
  onlineUsers : List (String × OnlineUser)
  userSockets : List (String × String)
  socketUsers : List (String × String)
  events : List PresenceEvent
deriving DecidableEq, Repr

def presenceInit : PresenceState :=
  { onlineUsers := [], userSockets := [], socketUsers := [], events := [] }

/-- `Map.prototype.set`: overwrite in place when the key exists, else append. -/
def assocSet {α : Type} (l : List (String × α)) (k : String) (v : α) :
    List (String × α) :=
  if l.any (fun e => e.1 = k) then
    l.map (fun e => if e.1 = k then (k, v) else e)
  else l ++ [(k, v)]

/-- `Map.prototype.get`. -/
def assocGet {α : Type} (l : List (String × α)) (k : String) : Option α :=
  (l.find? (fun e => e.1 = k)).map Prod.snd

/-- `PresenceService.setUserOffline`: no-op when the user is not online;
otherwise delete from the three maps and broadcast `user_offline`. -/
def setUserOffline (userId : String) (st : PresenceState) : PresenceState :=
  match assocGet st.onlineUsers userId with
  | none => st
  | some _ =>
      let socketIdOpt := assocGet st.userSockets userId
      { onlineUsers := st.onlineUsers.filter (fun e => e.1 ≠ userId)
        userSockets := st.userSockets.filter (fun e => e.1 ≠ userId)
        socketUsers := match socketIdOpt with
          | some socketId => st.socketUsers.filter (fun e => e.1 ≠ socketId)
          | none => st.socketUsers
        events := st.events ++ [{ type := "user_offline", userId := userId }] }

/-- `PresenceService.setUserOnline`: first remove any existing connection for
this user (via `setUserOffline`), then register the record with
`joinedAt = lastActivity = now`, broadcast `user_online` and send the current
list to the new socket (`bulk_update`). -/
def setUserOnline (userId socketId : String) (info : UserInfo) (now : ℚ)
    (st : PresenceState) : PresenceState :=
  let st1 := setUserOffline userId st
  let onlineUser : OnlineUser :=
    { id := userId, socketId := socketId, joinedAt := now, lastActivity := now,
      name := info.name, avatar := info.avatar, tags := info.tags,
      country := info.country }
  { onlineUsers := assocSet st1.onlineUsers userId onlineUser
    userSockets := assocSet st1.userSockets userId socketId
    socketUsers := assocSet st1.socketUsers socketId userId
    events := st1.events ++ [{ type := "user_online", userId := userId },
      { type := "bulk_update", userId := userId }] }

/-- `PresenceService.updateUserActivity`: refresh `lastActivity` in place and
broadcast `user_activity`; no-op for unknown sockets. -/
def updateUserActivity (socketId : String) (now : ℚ) (st : PresenceState) :
    PresenceState :=
  match assocGet st.socketUsers socketId with
  | none => st
  | some userId =>
      match assocGet st.onlineUsers userId with
      | none => st
      | some _ =>
          { st with
            onlineUsers := st.onlineUsers.map
              (fun e => if e.1 = userId then (e.1, { e.2 with lastActivity := now }) else e)
            events := st.events ++ [{ type := "user_activity", userId := userId }] }

/-- One removal of `cleanupInactiveUsers`'s second phase. -/
def presenceRemoveOne (acc : PresenceState) (userId : String) : PresenceState :=
  let acc1 := { acc with onlineUsers := acc.onlineUsers.filter (fun e => e.1 ≠ userId) }
  match assocGet acc1.userSockets userId with
  | some socketId =>
      { acc1 with
        socketUsers := acc1.socketUsers.filter (fun e => e.1 ≠ socketId)
        userSockets := acc1.userSockets.filter (fun e => e.1 ≠ userId) }
  | none => acc1

/-- `PresenceService.cleanupInactiveUsers`: collect every user whose
last-activity age strictly exceeds the 5-minute timeout (300000 ms), then
delete each from the three maps.  No presence event is broadcast and no other
service is touched. -/
def cleanupInactiveUsers (now : ℚ) (st : PresenceState) : PresenceState :=
  ((st.onlineUsers.filter (fun e => 300000 < now - e.2.lastActivity)).map
    Prod.fst).foldl presenceRemoveOne st

/-- `PresenceService.getOnlineUsers`: `Array.from(this.onlineUsers.values())`,
i.e. the records in map insertion order. -/
def getOnlineUsers (st : PresenceState) : List OnlineUser :=
  st.onlineUsers.map Prod.snd

/-- `PresenceService.getOnlineUsersByTags`. -/
def getOnlineUsersByTags (tags : List String) (st : PresenceState) : List OnlineUser :=
  (getOnlineUsers st).filter (fun user => user.tags.any (fun tag => tags.contains tag))

/-- `PresenceService.getOnlineUsersByCountry`. -/
def getOnlineUsersByCountry (country : String) (st : PresenceState) : List OnlineUser :=
  (getOnlineUsers st).filter (fun user => user.country = country ∨ country = "Any on Earth")

theorem presenceRemoveOne_onlineUsers_subset (acc : PresenceState) (userId : String) :
    ∀ e ∈ (presenceRemoveOne acc userId).onlineUsers, e ∈ acc.onlineUsers := by
  intro e he
  unfold presenceRemoveOne at he
  dsimp only at he
  split at he <;> exact (List.mem_filter.mp he).1

theorem presenceRemoveOne_events (acc : PresenceState) (userId : String) :
    (presenceRemoveOne acc userId).events = acc.events := by
  unfold presenceRemoveOne
  dsimp only
  split <;> rfl

theorem foldl_presenceRemoveOne_events (l : List String) :
    ∀ st : PresenceState, (l.foldl presenceRemoveOne st).events = st.events := by
  induction l with
  | nil => intro st; rfl
  | cons userId rest ih =>
      intro st
      rw [List.foldl_cons, ih, presenceRemoveOne_events]

theorem foldl_presenceRemoveOne_keeps_absent (userId : String) (l : List String) :
    ∀ st : PresenceState, (∀ e ∈ st.onlineUsers, e.1 ≠ userId) →
      ∀ e ∈ (l.foldl presenceRemoveOne st).onlineUsers, e.1 ≠ userId := by
  induction l with
  | nil => intro st h e he; exact h e he
  | cons uid rest ih =>
      intro st h e he
      refine ih _ ?_ e he
      intro q hq
      exact h q (presenceRemoveOne_onlineUsers_subset st uid q hq)

theorem presenceRemoveOne_removes (acc : PresenceState) (userId : String) :
    ∀ e ∈ (presenceRemoveOne acc userId).onlineUsers, e.1 ≠ userId := by
  intro e he
  unfold presenceRemoveOne at he
  dsimp only at he
  split at he <;> simpa using (List.mem_filter.mp he).2

/-- C8 (amended): every presence record whose last-activity age strictly
exceeds the 5-minute timeout is removed from the online-user map by one run
of the background sweep — but the sweep broadcasts no presence event at all
(in particular no `user_offline`), and it touches no other service state. -/
theorem c8_cleanup_removes_silently (now : ℚ) (st : PresenceState)
    (userId : String) (u : OnlineUser) (hu : (userId, u) ∈ st.onlineUsers)
    (hstale : 300000 < now - u.lastActivity) :
    (∀ e ∈ (cleanupInactiveUsers now st).onlineUsers, e.1 ≠ userId) ∧
    (cleanupInactiveUsers now st).events = st.events := by
  constructor
  · intro e he
    have hmem : userId ∈ (st.onlineUsers.filter
        (fun e => 300000 < now - e.2.lastActivity)).map Prod.fst :=
      List.mem_map.mpr ⟨(userId, u),
        List.mem_filter.mpr ⟨hu, by simpa using hstale⟩, rfl⟩
    obtain ⟨l1, l2, hsplit⟩ := List.append_of_mem hmem
    unfold cleanupInactiveUsers at he
    rw [hsplit, List.foldl_append, List.foldl_cons] at he
    exact foldl_presenceRemoveOne_keeps_absent userId l2 _
      (presenceRemoveOne_removes _ userId) e he
  · unfold cleanupInactiveUsers
    exact foldl_presenceRemoveOne_events _ st

def c9Info : UserInfo := { name := "N", avatar := none, tags := ["music"], country := "X" }

def c8Before : PresenceState := setUserOnline "u1" "s1" c9Info 0 presenceInit

def c8After : PresenceState := cleanupInactiveUsers 300001 c8Before

/-- C8, counterexample: at the concrete state holding one user inactive for
longer than the timeout, the sweep removes the record from all three maps but
the event ledger is unchanged — no `user_offline` is broadcast (and the sweep
has no access to any session state to tear down), so the claim's emission and
cascade clauses are false on the code. -/
theorem c8_counterexample :
    (300000 : ℚ) < 300001 - 0 ∧
    c8Before.onlineUsers.length = 1 ∧
    c8After.onlineUsers = [] ∧ c8After.userSockets = [] ∧ c8After.socketUsers = [] ∧
    c8After.events = c8Before.events ∧
    c8Before.events.filter (fun e => e.type = "user_offline") = [] := by decide

/-- C8, witness: the amended theorem applied at that concrete inactive
state. -/
theorem c8_cleanup_removes_silently_witness :
    (∀ e ∈ (cleanupInactiveUsers 300001 c8Before).onlineUsers, e.1 ≠ "u1") ∧
    (cleanupInactiveUsers 300001 c8Before).events = c8Before.events :=
  c8_cleanup_removes_silently 300001 c8Before "u1"
    { id := "u1", socketId := "s1", joinedAt := 0, lastActivity := 0,
      name := "N", avatar := none, tags := ["music"], country := "X" }
    (by decide) (by decide)

/-! ### Ordering of the online-user list -/

/-- The presence operations the registry undergoes, each mutating op stamped
with its `Date.now()` instant. -/
inductive PresOp where
  | online (userId socketId : String) (info : UserInfo) (now : ℚ)
  | offline (userId : String)
  | activity (socketId : String) (now : ℚ)
  | sweep (now : ℚ)
deriving DecidableEq, Repr

def applyPresOp (st : PresenceState) : PresOp → PresenceState
  | .online userId socketId info now => setUserOnline userId socketId info now st
  | .offline userId => setUserOffline userId st
  | .activity socketId now => updateUserActivity socketId now st
  | .sweep now => cleanupInactiveUsers now st

def runPres (st : PresenceState) (ops : List PresOp) : PresenceState :=
  ops.foldl applyPresOp st

/-- The operation sequence is chronological: the stamped instants never
decrease, starting from the lower bound `t`. -/
def chronFrom : ℚ → List PresOp → Bool
  | _, [] => true
  | t, .online _ _ _ now :: rest => decide (t ≤ now) && chronFrom now rest
  | t, .offline _ :: rest => chronFrom t rest
  | t, .activity _ now :: rest => decide (t ≤ now) && chronFrom now rest
  | t, .sweep now :: rest => decide (t ≤ now) && chronFrom now rest

/-- Time invariant: all join timestamps are at most the clock bound and the
map is in ascending join order. -/
def TimeOK (t : ℚ) (st : PresenceState) : Prop :=
  (∀ e ∈ st.onlineUsers, e.2.joinedAt ≤ t) ∧
  st.onlineUsers.Pairwise (fun a b => a.2.joinedAt ≤ b.2.joinedAt)

theorem TimeOK_mono (t t' : ℚ) (st : PresenceState) (h : t ≤ t') (hok : TimeOK t st) :
    TimeOK t' st :=
  ⟨fun e he => le_trans (hok.1 e he) h, hok.2⟩

theorem TimeOK_of_sublist (t : ℚ) (st st' : PresenceState)
    (hsub : st'.onlineUsers.Sublist st.onlineUsers) (hok : TimeOK t st) :
    TimeOK t st' :=
  ⟨fun e he => hok.1 e (hsub.subset he), hok.2.sublist hsub⟩

theorem setUserOffline_onlineUsers_sublist (userId : String) (st : PresenceState) :
    (setUserOffline userId st).onlineUsers.Sublist st.onlineUsers := by
  unfold setUserOffline
  dsimp only
  split
  · exact List.Sublist.refl _
  · exact List.filter_sublist _

theorem setUserOffline_no_key (userId : String) (st : PresenceState) :
    ∀ e ∈ (setUserOffline userId st).onlineUsers, e.1 ≠ userId := by
  intro e he
  unfold setUserOffline at he
  dsimp only at he
  split at he
  next h =>
      have hfind : st.onlineUsers.find? (fun e => e.1 = userId) = none := by
        unfold assocGet at h
        exact Option.map_eq_none.mp h
      have := List.find?_eq_none.mp hfind e he
      simpa using this
  next => simpa using (List.mem_filter.mp he).2

theorem assocSet_of_absent {α : Type} (l : List (String × α)) (k : String) (v : α)
    (h : ∀ e ∈ l, e.1 ≠ k) : assocSet l k v = l ++ [(k, v)] := by
  have hany : l.any (fun e => e.1 = k) = false := by
    rw [List.any_eq_false]
    intro e he
    simpa using h e he
  simp [assocSet, hany]

theorem presenceRemoveOne_onlineUsers_sublist (acc : PresenceState) (userId : String) :
    (presenceRemoveOne acc userId).onlineUsers.Sublist acc.onlineUsers := by
  unfold presenceRemoveOne
  dsimp only
  split <;> exact List.filter_sublist _

theorem cleanup_onlineUsers_sublist (l : List String) :
    ∀ st : PresenceState,
      ((l.foldl presenceRemoveOne st)).onlineUsers.Sublist st.onlineUsers := by
  induction l with
  | nil => intro st; exact List.Sublist.refl _
  | cons userId rest ih =>
      intro st
      exact (ih (presenceRemoveOne st userId)).trans
        (presenceRemoveOne_onlineUsers_sublist st userId)

theorem TimeOK_setUserOnline (t now : ℚ) (userId socketId : String) (info : UserInfo)
    (st : PresenceState) (hok : TimeOK t st) (htn : t ≤ now) :
    TimeOK now (setUserOnline userId socketId info now st) := by
  have h1 : TimeOK t (setUserOffline userId st) :=
    TimeOK_of_sublist t st _ (setUserOffline_onlineUsers_sublist userId st) hok
  have habs := setUserOffline_no_key userId st
  unfold setUserOnline
  dsimp only
  rw [assocSet_of_absent _ userId _ habs]
  constructor
  · intro e he
    rcases List.mem_append.mp he with h | h
    · exact le_trans (h1.1 e h) htn
    · rw [List.mem_singleton.mp h]
  · rw [List.pairwise_append]
    refine ⟨h1.2, by simp, ?_⟩
    intro a ha b hb
    rw [List.mem_singleton] at hb
    subst hb
    exact le_trans (h1.1 a ha) htn

theorem TimeOK_updateUserActivity (t now : ℚ) (socketId : String)
    (st : PresenceState) (hok : TimeOK t st) :
    TimeOK t (updateUserActivity socketId now st) := by
  unfold updateUserActivity
  split
  · exact hok
  next userId h1 =>
    split
    · exact hok
    next u h2 =>
      have hjoin : ∀ e : String × OnlineUser,
          (if e.1 = userId then (e.1, { e.2 with lastActivity := now }) else e).2.joinedAt
            = e.2.joinedAt := by
        intro e
        split_ifs <;> rfl
      constructor
      · intro e he
        dsimp only at he
        obtain ⟨a, ha, rfl⟩ := List.mem_map.mp he
        simp only [hjoin]
        exact hok.1 a ha
      · dsimp only
        rw [List.pairwise_map]
        refine hok.2.imp ?_
        intro a b hab
        simp only [hjoin]
        exact hab

theorem runPres_TimeOK (ops : List PresOp) :
    ∀ (t : ℚ) (st : PresenceState), TimeOK t st → chronFrom t ops = true →
      ∃ tEnd, TimeOK tEnd (runPres st ops) := by
  induction ops with
  | nil => intro t st h _; exact ⟨t, h⟩
  | cons op rest ih =>
      intro t st h hchron
      cases op with
      | online userId socketId info now =>
          simp only [chronFrom, Bool.and_eq_true, decide_eq_true_eq] at hchron
          exact ih now _ (TimeOK_setUserOnline t now userId socketId info st h hchron.1)
            hchron.2
      | offline userId =>
          simp only [chronFrom] at hchron
          exact ih t _ (TimeOK_of_sublist t st _
            (setUserOffline_onlineUsers_sublist userId st) h) hchron
      | activity socketId now =>
          simp only [chronFrom, Bool.and_eq_true, decide_eq_true_eq] at hchron
          exact ih now _ (TimeOK_mono t now _ hchron.1
            (TimeOK_updateUserActivity t now socketId st h)) hchron.2
      | sweep now =>
          simp only [chronFrom, Bool.and_eq_true, decide_eq_true_eq] at hchron
          exact ih now _ (TimeOK_mono t now _ hchron.1
            (TimeOK_of_sublist t st _ (cleanup_onlineUsers_sublist _ st) h)) hchron.2

/-- C9 (amended): for every chronological sequence of presence operations the
list-online operation returns the current records in map insertion order,
which is ascending join-timestamp order (earliest joined first) — not
descending — and the tag and country variants return exactly the current
records satisfying their filter, in the same order. -/
theorem c9_list_online_order_and_filter :
    (∀ (t0 : ℚ) (ops : List PresOp), chronFrom t0 ops = true →
      (getOnlineUsers (runPres presenceInit ops)).Pairwise
        (fun a b => a.joinedAt ≤ b.joinedAt)) ∧
    (∀ (st : PresenceState) (tags : List String) (u : OnlineUser),
      u ∈ getOnlineUsersByTags tags st ↔
        u ∈ getOnlineUsers st ∧ u.tags.any (fun tag => tags.contains tag) = true) ∧
    (∀ (st : PresenceState) (country : String) (u : OnlineUser),
      u ∈ getOnlineUsersByCountry country st ↔
        u ∈ getOnlineUsers st ∧ (u.country = country ∨ country = "Any on Earth")) := by
  refine ⟨?_, ?_, ?_⟩
  · intro t0 ops hchron
    obtain ⟨tEnd, _, hs⟩ := runPres_TimeOK ops t0 presenceInit
      ⟨fun e he => absurd he (List.not_mem_nil e), List.Pairwise.nil⟩ hchron
    unfold getOnlineUsers
    rw [List.pairwise_map]
    exact hs
  · intro st tags u
    simp [getOnlineUsersByTags, List.mem_filter]
  · intro st country u
    simp [getOnlineUsersByCountry, List.mem_filter]

def c9Ops : List PresOp :=
  [.online "u1" "s1" c9Info 0, .online "u2" "s2" c9Info 1]

def c9State : PresenceState := runPres presenceInit c9Ops

def c9rec1 : OnlineUser :=
  { id := "u1", socketId := "s1", joinedAt := 0, lastActivity := 0,
    name := "N", avatar := none, tags := ["music"], country := "X" }

def c9rec2 : OnlineUser :=
  { id := "u2", socketId := "s2", joinedAt := 1, lastActivity := 1,
    name := "N", avatar := none, tags := ["music"], country := "X" }

/-- C9, counterexample: after `u1` joins at `t = 0` and `u2` at `t = 1` the
list-online operation returns `[u1, u2]` — the earliest joined first — so the
claimed join-timestamp-descending order (most recently joined first) is false
on the code, which returns plain `Map` insertion order. -/
theorem c9_counterexample :
    getOnlineUsers c9State = [c9rec1, c9rec2] ∧ c9rec1.joinedAt < c9rec2.joinedAt ∧
    ¬ (getOnlineUsers c9State).Pairwise (fun a b => b.joinedAt ≤ a.joinedAt) := by
  refine ⟨by decide, by decide, ?_⟩
  intro h
  rw [show getOnlineUsers c9State = [c9rec1, c9rec2] from by decide] at h
  have := (List.pairwise_cons.mp h).1 c9rec2 (List.mem_singleton.mpr rfl)
  exact absurd this (by decide)

/-- C9, witness: the amended theorem applied to the concrete chronological
two-join run, and the tag-filter exactness at a concrete record. -/
theorem c9_list_online_witness :
    (getOnlineUsers (runPres presenceInit c9Ops)).Pairwise
      (fun a b => a.joinedAt ≤ b.joinedAt) ∧
    (c9rec1 ∈ getOnlineUsersByTags ["music"] c9State ↔
      c9rec1 ∈ getOnlineUsers c9State ∧
        c9rec1.tags.any (fun tag => ["music"].contains tag) = true) :=
  ⟨c9_list_online_order_and_filter.1 0 c9Ops (by decide),
   c9_list_online_order_and_filter.2.1 c9State ["music"] c9rec1⟩

end Toko
